import Mathlib

/-!
Verification of the CraftedNBA four-factors importer
(`src/import_craftednba.py`) and its companion loader
(`src/data_bootloader.py`).

Strings are modelled as `List Char` (Python `str`).  Cell values of a
pandas table are modelled by `Cell`: missing (NaN/None), a string, or a
numeric value.  Machine floats are modelled by `ℚ` (exact arithmetic; the
spec's "within floating tolerance" comparisons become exact equalities).
Fallible steps return `Option`/`Except`.  Filesystem state is an
association list from file names to file contents.
-/

namespace MLB

/-- Python strings. -/
abbrev PyStr := List Char

/-- Python `str.strip()` default whitespace characters (ASCII fragment). -/
def isSpace (c : Char) : Bool :=
  c == ' ' || c == '\t' || c == '\n' || c == '\r' || c == '\x0b' || c == '\x0c'

/-- Python `str.lstrip()`. -/
def lstrip (s : PyStr) : PyStr := s.dropWhile isSpace

/-- Python `str.rstrip()`. -/
def rstrip (s : PyStr) : PyStr := (s.reverse.dropWhile isSpace).reverse

/-- Python `str.strip()`. -/
def strip (s : PyStr) : PyStr := rstrip (lstrip s)

/-- Python `s.replace('%', '')`: delete every `'%'` character. -/
def removePct (s : PyStr) : PyStr := s.filter (fun c => !(c == '%'))

/-- Python `str.lower()` (ASCII fragment, as used by the column names). -/
def lowerStr (s : PyStr) : PyStr := s.map Char.toLower

/-- Numeric value of a digit string, most significant first
(the digits fragment of Python `int(s)`). -/
def natOfDigits (s : PyStr) : Nat :=
  s.foldl (fun n c => 10 * n + (c.toNat - '0'.toNat)) 0

/-- Parse an unsigned decimal literal: `digits`, `digits.digits`,
`digits.` or `.digits`.  The decimal fragment of Python `float(s)`
(exponents, underscores, `inf`/`nan` are not exercised by this code's
data and are not modelled). -/
def parseDec (s : PyStr) : Option ℚ :=
  match s.span Char.isDigit with
  | (ip, []) => if ip.isEmpty then none else some (natOfDigits ip)
  | (ip, '.' :: fp) =>
      if fp.all Char.isDigit && !(ip.isEmpty && fp.isEmpty) then
        some ((natOfDigits ip : ℚ) + (natOfDigits fp : ℚ) / (10 : ℚ) ^ fp.length)
      else none
  | _ => none

/-- Python `float(s)` on its decimal fragment: surrounding whitespace is
stripped, then an optional sign and a decimal literal. -/
def pyFloat (s : PyStr) : Option ℚ :=
  match strip s with
  | '+' :: r => parseDec r
  | '-' :: r => (parseDec r).map (fun q => -q)
  | r => parseDec r

/-- A pandas cell: NaN/None, a string, or a number. -/
inductive Cell where
  | missing : Cell
  | str (s : PyStr) : Cell
  | num (v : ℚ) : Cell
deriving DecidableEq

/-- The shared string branch of both normalizers:
`s = x.strip().replace('%','')`; empty → `None`;
`try: val = float(s) except: return None`. -/
def strVal (x : PyStr) : Option ℚ :=
  let s := removePct (strip x)
  if s.isEmpty then none else pyFloat s

/-- `pct_to_float` from `import_craftednba.py`: convert percent
strings/numbers to 0–1 fractions.  Returning `none` models Python
returning `None`; the function is total (no exception escapes). -/
def pct_to_float (x : Cell) : Option ℚ :=
  match x with
  | .missing => none
  | .str s =>
      match strVal s with
      | none => none
      | some val => if 0 ≤ val ∧ val ≤ 1.5 then some val else some (val / 100)
  | .num val => if 0 ≤ val ∧ val ≤ 1.5 then some val else some (val / 100)

/-- `ratio_to_float` from `import_craftednba.py`: normalize FTAr as a
ratio (not percent). -/
def ratio_to_float (x : Cell) : Option ℚ :=
  match x with
  | .missing => none
  | .str s =>
      match strVal s with
      | none => none
      | some val => if val > 1.5 then some (val / 100) else some val
  | .num val => if val > 1.5 then some (val / 100) else some val

/-! ### Column resolution (importer) -/

/-- `find_column(df, aliases)` from `import_craftednba.py`: scan the
aliases in order; for each alias, an exact membership test on the
column names first, then a scan for a column with equal
stripped-and-lowercased form. -/
def find_column (cols : List PyStr) (al : List PyStr) : Option PyStr :=
  match al with
  | [] => none
  | a :: rest =>
      if cols.contains a then some a
      else
        match cols.find? (fun col => lowerStr (strip col) == lowerStr (strip a)) with
        | some col => some col
        | none => find_column cols rest

/-- The `TEAM_ABBR` lookup table from `import_craftednba.py`. -/
def TEAM_ABBR : List (PyStr × PyStr) := [
  ("Atlanta Hawks".toList, "ATL".toList), ("Boston Celtics".toList, "BOS".toList),
  ("Brooklyn Nets".toList, "BKN".toList), ("Charlotte Hornets".toList, "CHA".toList),
  ("Chicago Bulls".toList, "CHI".toList), ("Cleveland Cavaliers".toList, "CLE".toList),
  ("Dallas Mavericks".toList, "DAL".toList), ("Denver Nuggets".toList, "DEN".toList),
  ("Detroit Pistons".toList, "DET".toList), ("Golden State Warriors".toList, "GSW".toList),
  ("Houston Rockets".toList, "HOU".toList), ("Indiana Pacers".toList, "IND".toList),
  ("LA Clippers".toList, "LAC".toList), ("Los Angeles Clippers".toList, "LAC".toList),
  ("Los Angeles Lakers".toList, "LAL".toList), ("Memphis Grizzlies".toList, "MEM".toList),
  ("Miami Heat".toList, "MIA".toList), ("Milwaukee Bucks".toList, "MIL".toList),
  ("Minnesota Timberwolves".toList, "MIN".toList), ("New Orleans Pelicans".toList, "NOP".toList),
  ("New York Knicks".toList, "NYK".toList), ("Oklahoma City Thunder".toList, "OKC".toList),
  ("Orlando Magic".toList, "ORL".toList), ("Philadelphia 76ers".toList, "PHI".toList),
  ("Phoenix Suns".toList, "PHX".toList), ("Portland Trail Blazers".toList, "POR".toList),
  ("Sacramento Kings".toList, "SAC".toList), ("San Antonio Spurs".toList, "SAS".toList),
  ("Toronto Raptors".toList, "TOR".toList), ("Utah Jazz".toList, "UTA".toList),
  ("Washington Wizards".toList, "WAS".toList)]

/-- Alias list for the canonical `team` column. -/
def aliasesTeam : List PyStr :=
  ["team".toList, "Team".toList, "TEAM".toList, "squad".toList, "franchise".toList]

/-- Alias list for `ORTG`. -/
def aliasesORTG : List PyStr :=
  ["ORTG".toList, "OffRtg".toList, "ORtg".toList, "Offensive Rating".toList]

/-- Alias list for `DRTG`. -/
def aliasesDRTG : List PyStr :=
  ["DRTG".toList, "DefRtg".toList, "DRtg".toList, "Defensive Rating".toList]

/-- Alias list for `NetRTG`. -/
def aliasesNetRTG : List PyStr :=
  ["NetRTG".toList, "Net Rtg".toList, "Net Rating".toList, "Net".toList]

/-- Alias list for `Off_eFG`. -/
def aliasesOffEFG : List PyStr :=
  ["EFG%".toList, "eFG%".toList, "Off eFG%".toList, "EFG_off".toList,
   "EFG_offense".toList, "Offense eFG%".toList]

/-- Alias list for `Off_ORB`. -/
def aliasesOffORB : List PyStr :=
  ["ORB%".toList, "Off ORB%".toList, "ORB_off".toList, "ORB% (Off)".toList]

/-- Alias list for `Off_FTAr`. -/
def aliasesOffFTAr : List PyStr :=
  ["FTAr".toList, "FTA Rate".toList, "FT Rate (Off)".toList]

/-- Alias list for `Off_TOV`. -/
def aliasesOffTOV : List PyStr :=
  ["TO%".toList, "TOV%".toList, "TOV_off".toList, "TO% (Off)".toList, "Turnover%".toList]

/-- Alias list for `Def_eFG`. -/
def aliasesDefEFG : List PyStr :=
  ["EFG% (Def)".toList, "Def eFG%".toList, "eFG%_def".toList, "eFG% Allowed".toList]

/-- Alias list for `Def_ORB`. -/
def aliasesDefORB : List PyStr :=
  ["ORB% (Def)".toList, "Def ORB%".toList, "Opp ORB%".toList, "ORB%_def".toList]

/-- Alias list for `Def_FTAr`. -/
def aliasesDefFTAr : List PyStr :=
  ["FTAr (Def)".toList, "Def FTAr".toList, "Opp FTAr".toList, "FT Rate (Def)".toList]

/-- Alias list for `Def_TOV`. -/
def aliasesDefTOV : List PyStr :=
  ["TO% (Def)".toList, "Def TOV%".toList, "TOV%_def".toList, "Opp TOV% Forced".toList]

/-- The `ALIASES` dict of `import_craftednba.py`, in insertion order. -/
def ALIASES : List (PyStr × List PyStr) := [
  ("team".toList, aliasesTeam), ("ORTG".toList, aliasesORTG),
  ("DRTG".toList, aliasesDRTG), ("NetRTG".toList, aliasesNetRTG),
  ("Off_eFG".toList, aliasesOffEFG), ("Off_ORB".toList, aliasesOffORB),
  ("Off_FTAr".toList, aliasesOffFTAr), ("Off_TOV".toList, aliasesOffTOV),
  ("Def_eFG".toList, aliasesDefEFG), ("Def_ORB".toList, aliasesDefORB),
  ("Def_FTAr".toList, aliasesDefFTAr), ("Def_TOV".toList, aliasesDefTOV)]

/-! ### The importer pipeline -/

/-- A raw input table (the result of `pd.read_csv` on the raw export):
a list of column names and rows of cells positionally aligned with the
columns. -/
structure RawTable where
  columns : List PyStr
  rows : List (List Cell)
deriving DecidableEq

/-- Index of a column name in a column list. -/
def colIndex (cols : List PyStr) (c : PyStr) : Option Nat :=
  cols.findIdx? (fun x => x == c)

/-- The cell of a row under a given column name (missing when the
column does not exist; resolution guarantees existence). -/
def cellAt (t : RawTable) (row : List Cell) (c : PyStr) : Cell :=
  match colIndex t.columns c with
  | none => .missing
  | some i => row.getD i .missing

/-- An import error carries the canonical field name and its accepted
aliases, mirroring
`ValueError(f"Missing required column for [canon]. Acceptable aliases: [list]")`. -/
abbrev ImportErr := PyStr × List PyStr

/-- Resolve one required canonical column, raising the descriptive
error when no alias matches. -/
def resolveReq (cols : List PyStr) (canon : PyStr) (al : List PyStr) :
    Except ImportErr PyStr :=
  match find_column cols al with
  | some c => .ok c
  | none => .error (canon, al)

/-- The resolved source column for each canonical field; `NetRTG` is
optional. -/
structure Resolved where
  team : PyStr
  ortgCol : PyStr
  drtgCol : PyStr
  netrtgCol : Option PyStr
  offEFG : PyStr
  offORB : PyStr
  offFTAr : PyStr
  offTOV : PyStr
  defEFG : PyStr
  defORB : PyStr
  defFTAr : PyStr
  defTOV : PyStr
deriving DecidableEq

/-- The resolution loop of `load_and_normalize`: iterate the `ALIASES`
entries in dict order, raising at the first unresolvable required
canonical field; a missing `NetRTG` is passed over. -/
def resolveAll (cols : List PyStr) : Except ImportErr Resolved := do
  let team ← resolveReq cols "team".toList aliasesTeam
  let ortgCol ← resolveReq cols "ORTG".toList aliasesORTG
  let drtgCol ← resolveReq cols "DRTG".toList aliasesDRTG
  let netrtgCol := find_column cols aliasesNetRTG
  let offEFG ← resolveReq cols "Off_eFG".toList aliasesOffEFG
  let offORB ← resolveReq cols "Off_ORB".toList aliasesOffORB
  let offFTAr ← resolveReq cols "Off_FTAr".toList aliasesOffFTAr
  let offTOV ← resolveReq cols "Off_TOV".toList aliasesOffTOV
  let defEFG ← resolveReq cols "Def_eFG".toList aliasesDefEFG
  let defORB ← resolveReq cols "Def_ORB".toList aliasesDefORB
  let defFTAr ← resolveReq cols "Def_FTAr".toList aliasesDefFTAr
  let defTOV ← resolveReq cols "Def_TOV".toList aliasesDefTOV
  return ⟨team, ortgCol, drtgCol, netrtgCol, offEFG, offORB, offFTAr, offTOV,
          defEFG, defORB, defFTAr, defTOV⟩

/-- `pd.to_numeric(..., errors="coerce")` on one cell: numbers pass
through, strings are parsed as floats, failures and missing become NaN. -/
def toNumeric (c : Cell) : Option ℚ :=
  match c with
  | .missing => none
  | .num v => some v
  | .str s => pyFloat s

/-- `out["team_name"].map(TEAM_ABBR).fillna(out["team_name"])`:
a string found in the lookup becomes its code, anything else passes
through unchanged. -/
def mapTeam (c : Cell) : Cell :=
  match c with
  | .str s =>
      match TEAM_ABBR.lookup s with
      | some ab => .str ab
      | none => .str s
  | x => x

/-- NaN-propagating subtraction (`out["ortg"] - out["drtg"]`). -/
def subOpt (a b : Option ℚ) : Option ℚ :=
  match a, b with
  | some x, some y => some (x - y)
  | _, _ => none

/-- `Series.clip(lower=0, upper=1)` on one cell; NaN stays NaN. -/
def clip01 (o : Option ℚ) : Option ℚ := o.map (fun v => max 0 (min 1 v))

/-- `Series.clip(lower=0, upper=1.5)` on one cell; NaN stays NaN. -/
def clip015 (o : Option ℚ) : Option ℚ := o.map (fun v => max 0 (min 1.5 v))

/-- One row of the importer's output table, fields in the assignment
order of `load_and_normalize`. -/
structure OutRow where
  team_name : Cell
  team : Cell
  ortg : Option ℚ
  drtg : Option ℚ
  netrtg : Option ℚ
  off_efg : Option ℚ
  off_orb : Option ℚ
  off_tov : Option ℚ
  off_ftar : Option ℚ
  def_efg : Option ℚ
  def_orb : Option ℚ
  def_tov : Option ℚ
  def_ftar : Option ℚ
  source : PyStr
deriving DecidableEq

/-- Build one output row of `load_and_normalize` from one raw row:
team mapping, numeric coercion of the ratings, an inferred net rating
when the column is absent, the four-factor normalizers, and the bound
clips applied column-wise. -/
def buildRow (t : RawTable) (res : Resolved) (row : List Cell) : OutRow :=
  let tname := cellAt t row res.team
  let ortg := toNumeric (cellAt t row res.ortgCol)
  let drtg := toNumeric (cellAt t row res.drtgCol)
  { team_name := tname
    team := mapTeam tname
    ortg := ortg
    drtg := drtg
    netrtg :=
      match res.netrtgCol with
      | some c => toNumeric (cellAt t row c)
      | none => subOpt ortg drtg
    off_efg := clip01 (pct_to_float (cellAt t row res.offEFG))
    off_orb := clip01 (pct_to_float (cellAt t row res.offORB))
    off_tov := clip01 (pct_to_float (cellAt t row res.offTOV))
    off_ftar := clip015 (ratio_to_float (cellAt t row res.offFTAr))
    def_efg := clip01 (pct_to_float (cellAt t row res.defEFG))
    def_orb := clip01 (pct_to_float (cellAt t row res.defORB))
    def_tov := clip01 (pct_to_float (cellAt t row res.defTOV))
    def_ftar := clip015 (ratio_to_float (cellAt t row res.defFTAr))
    source := "CraftedNBA".toList }

/-- `load_and_normalize` of `import_craftednba.py`: resolve the columns
(raising on a missing required one), then build the normalized output
table, one output row per input row. -/
def load_and_normalize (t : RawTable) : Except ImportErr (List OutRow) :=
  (resolveAll t.columns).map (fun res => t.rows.map (buildRow t res))

/-! ### `main`: sorting and file writes -/

/-- Strict lexicographic order on code points (Python `str` `<`). -/
def lexLt : PyStr → PyStr → Bool
  | _, [] => false
  | [], _ :: _ => true
  | a :: as, b :: bs => if a = b then lexLt as bs else decide (a < b)

/-- Non-strict companion of `lexLt`. -/
def lexLe (a b : PyStr) : Bool := !(lexLt b a)

/-- Sort key of `df_out.sort_values("team")`: the team code (the team
cells written by the importer are always strings; other cells have no
meaningful pandas order and are keyed arbitrarily). -/
def cellKey : Cell → PyStr
  | .str s => s
  | _ => []

/-- Row comparison for `sort_values("team")`. -/
def rowLe (a b : OutRow) : Bool := lexLe (cellKey a.team) (cellKey b.team)

/-- Ordered insertion for `sortRows`. -/
def insertRow (x : OutRow) : List OutRow → List OutRow
  | [] => [x]
  | y :: ys => if rowLe x y then x :: y :: ys else y :: insertRow x ys

/-- `df_out = df.sort_values("team")`: sort the output rows by team
code. -/
def sortRows : List OutRow → List OutRow
  | [] => []
  | x :: xs => insertRow x (sortRows xs)

/-- Column names of the importer's output table, in assignment order
(the §3 record schema). -/
def OUT_COLS : List PyStr :=
  ["team_name".toList, "team".toList, "ortg".toList, "drtg".toList, "netrtg".toList,
   "off_efg".toList, "off_orb".toList, "off_tov".toList, "off_ftar".toList,
   "def_efg".toList, "def_orb".toList, "def_tov".toList, "def_ftar".toList,
   "source".toList]

/-- An `Option ℚ` cell serialized back into a table cell (NaN → empty →
NaN on re-read). -/
def numCell : Option ℚ → Cell
  | none => .missing
  | some v => .num v

/-- One output row serialized in `OUT_COLS` order, as written to the
CSV/JSON artifacts and re-read by the loader. -/
def rowCells (r : OutRow) : List Cell :=
  [r.team_name, r.team, numCell r.ortg, numCell r.drtg, numCell r.netrtg,
   numCell r.off_efg, numCell r.off_orb, numCell r.off_tov, numCell r.off_ftar,
   numCell r.def_efg, numCell r.def_orb, numCell r.def_tov, numCell r.def_ftar,
   .str r.source]

/-- A processed file's tabular content (column header plus rows);
serialization to CSV/JSON text is modelled as the identity. -/
structure CsvFile where
  columns : List PyStr
  rows : List (List Cell)
deriving DecidableEq

/-- The processed-files directory: file name ↦ content. -/
abbrev FS := List (PyStr × CsvFile)

/-- Write (create or overwrite) one file. -/
def writeFile (fs : FS) (name : PyStr) (c : CsvFile) : FS :=
  (name, c) :: fs.filter (fun p => !(p.1 == name))

/-- `processed/nba_team_factors_current.csv` (file name within the
processed directory). -/
def currentName : PyStr := "nba_team_factors_current.csv".toList

/-- Dated CSV snapshot name for a date stamp. -/
def snapName (stamp : PyStr) : PyStr :=
  "nba_team_factors_".toList ++ stamp ++ ".csv".toList

/-- Dated JSON snapshot name for a date stamp. -/
def jsonName (stamp : PyStr) : PyStr :=
  "nba_team_factors_".toList ++ stamp ++ ".json".toList

/-- `main()` of `import_craftednba.py` on the processed directory:
normalize first, and only on success sort and write the current CSV,
the dated CSV snapshot and the dated JSON snapshot.  The pair carries
the uncaught error (if any) and the resulting directory state. -/
def mainRun (t : RawTable) (stamp : PyStr) (fs : FS) : Option ImportErr × FS :=
  match load_and_normalize t with
  | .error e => (some e, fs)
  | .ok rows =>
      let csv : CsvFile := ⟨OUT_COLS, (sortRows rows).map rowCells⟩
      (none,
        writeFile (writeFile (writeFile fs currentName csv) (snapName stamp) csv)
          (jsonName stamp) csv)

/-! ### The loader (`data_bootloader.py`) -/

/-- The glob pattern `nba_team_factors_[0-9]*.csv`: the prefix, then one
digit, then any characters, ending in `.csv`. -/
def matchesSnapshotGlob (name : PyStr) : Bool :=
  let pfx := "nba_team_factors_".toList
  pfx.isPrefixOf name &&
    (match name.drop pfx.length with
     | [] => false
     | c :: rest => c.isDigit && ".csv".toList.isSuffixOf rest)

/-- `_latest_snapshot`: `sorted(glob.glob(...))[-1]` — the
lexicographically last matching name, `None` when there is none. -/
def latest_snapshot (names : List PyStr) : Option PyStr :=
  (names.filter matchesSnapshotGlob).foldl
    (fun acc n =>
      match acc with
      | none => some n
      | some m => some (if lexLt m n then n else m))
    none

/-- `path.split("_")[-1]`: the segment after the last underscore. -/
def afterLastUnderscore (s : PyStr) : PyStr :=
  (s.reverse.takeWhile (fun c => !(c == '_'))).reverse

/-- `path.split("_")[-1].split(".")[0]`: the date-stamp extraction of
the loader. -/
def stampOf (s : PyStr) : PyStr :=
  (afterLastUnderscore s).takeWhile (fun c => !(c == '.'))

/-- Gregorian leap year (as in `datetime.date`). -/
def isLeap (y : Nat) : Bool := (y % 4 == 0 && y % 100 != 0) || y % 400 == 0

/-- Length of a month in the proleptic Gregorian calendar. -/
def daysInMonth (y m : Nat) : Nat :=
  if m = 2 then (if isLeap y then 29 else 28)
  else if m = 4 ∨ m = 6 ∨ m = 9 ∨ m = 11 then 30
  else 31

/-- Days in the given year strictly before month `m`. -/
def daysBeforeMonth (y m : Nat) : Nat :=
  (List.range (m - 1)).foldl (fun acc i => acc + daysInMonth y (i + 1)) 0

/-- `datetime.date(y, m, d).toordinal()`: day count from 0001-01-01
(= day 1) in the proleptic Gregorian calendar. -/
def toOrdinal (y m d : Nat) : ℤ :=
  ((365 * (y - 1) + (y - 1) / 4 - (y - 1) / 100 + (y - 1) / 400
    + daysBeforeMonth y m + d : Nat) : ℤ)

/-- `int(stamp[:4]), int(stamp[4:6]), int(stamp[6:])` followed by
`dt.date(y, m, d)`, for an all-digit stamp: `none` models the uncaught
`ValueError` from `int('')` (stamp shorter than 7 characters) or from an
out-of-range date. -/
def parseStampOrdinal (st : PyStr) : Option ℤ :=
  if st.length ≤ 6 then none
  else
    let y := natOfDigits (st.take 4)
    let m := natOfDigits ((st.drop 4).take 2)
    let d := natOfDigits (st.drop 6)
    if 1 ≤ y ∧ 1 ≤ m ∧ m ≤ 12 ∧ 1 ≤ d ∧ d ≤ daysInMonth y m then
      some (toOrdinal y m d)
    else none

/-- The loader's required column set (`req` in `load_nba_team_factors`),
as written. -/
def REQ : List PyStr :=
  ["team".toList, "ortg".toList, "drtg".toList, "netrtg".toList,
   "off_efg".toList, "off_orb".toList, "off_tov".toList, "off_ftar".toList,
   "def_efg".toList, "def_orb".toList, "def_tov".toList, "def_ftar".toList]

/-- Loader failure modes: `FileNotFoundError`, an uncaught `ValueError`
from the date computation, or the missing-columns `ValueError` carrying
the missing set. -/
inductive LoadErr where
  | notFound : LoadErr
  | valueError : LoadErr
  | missingCols (ms : List PyStr) : LoadErr
deriving DecidableEq

/-- The staleness-check block of `load_nba_team_factors`: determine the
effective date stamp (from the latest dated snapshot when the current
file was chosen, from the chosen file's own name otherwise), and when
it is a nonempty digit string compare its age in days with
`max_age_days`; the returned age is the payload of the emitted
`StaleDataWarning`, `none` meaning no warning. -/
def staleWarn (names : List PyStr) (path : PyStr) (today max_age_days : ℤ) :
    Except LoadErr (Option ℤ) :=
  let stamp? : Option PyStr :=
    if "current.csv".toList.isSuffixOf path then
      (latest_snapshot names).map stampOf
    else some (stampOf path)
  match stamp? with
  | none => .ok none
  | some st =>
      if !st.isEmpty && st.all Char.isDigit then
        match parseStampOrdinal st with
        | none => .error .valueError
        | some o =>
            if max_age_days < today - o then .ok (some (today - o))
            else .ok none
      else .ok none

/-- The minimal schema assertion of `load_nba_team_factors`: all `REQ`
names must occur among the lower-cased column names, else the
missing-columns error is raised. -/
def schemaCheck (csv : CsvFile) (warn : Option ℤ) :
    Except LoadErr (CsvFile × Option ℤ) :=
  let missing := REQ.filter (fun r => !((csv.columns.map lowerStr).contains r))
  if missing.isEmpty then .ok (csv, warn)
  else .error (.missingCols missing)

/-- `load_nba_team_factors` of `data_bootloader.py`, over the processed
directory, the current day ordinal (`dt.date.today().toordinal()`) and
`max_age_days`.  On success it returns the file content unchanged
together with the optional staleness-warning age (the `age` embedded in
the `StaleDataWarning` message); `none` means no warning was emitted. -/
def load_nba_team_factors (fs : FS) (today : ℤ) (max_age_days : ℤ) :
    Except LoadErr (CsvFile × Option ℤ) :=
  let names := fs.map Prod.fst
  let path? := if names.contains currentName then some currentName
               else latest_snapshot names
  match path? with
  | none => .error .notFound
  | some path =>
      match List.lookup path fs with
      | none => .error .notFound
      | some csv =>
          match staleWarn names path today max_age_days with
          | .error e => .error e
          | .ok warn => schemaCheck csv warn

/-- Decidable equality for `Except` results. -/
instance {ε α : Type} [DecidableEq ε] [DecidableEq α] :
    DecidableEq (Except ε α) := fun a b =>
  match a, b with
  | .error e, .error f =>
      if h : e = f then isTrue (by rw [h]) else
        isFalse (by intro hh; cases hh; exact h rfl)
  | .ok x, .ok y =>
      if h : x = y then isTrue (by rw [h]) else
        isFalse (by intro hh; cases hh; exact h rfl)
  | .error e, .ok y => isFalse (by intro hh; cases hh)
  | .ok x, .error f => isFalse (by intro hh; cases hh)

/-- `schemaCheck` succeeds only with the file content and warning it
was given. -/
theorem schemaCheck_ok (csv : CsvFile) (warn w : Option ℤ) (out : CsvFile)
    (h : schemaCheck csv warn = .ok (out, w)) : out = csv ∧ w = warn := by
  simp only [schemaCheck] at h
  split at h
  · cases h; exact ⟨rfl, rfl⟩
  · cases h

/-! ### C1 / C2: the unit normalizers -/

/-- C1: `pct_to_float` maps missing to missing; a string that fails to
parse after the strip/`%`-removal cleanup (`strVal s = none`) to
missing, without error (the function is total); and any parsed or
numeric value `v` to `v` when `0 ≤ v ≤ 1.5` and `v / 100` otherwise.
In particular `"27.3"`, `27.3` and `0.273` all normalize to `0.273`. -/
theorem C1_pct_to_float_spec :
    pct_to_float .missing = none ∧
    (∀ s : PyStr, strVal s = none → pct_to_float (.str s) = none) ∧
    (∀ (s : PyStr) (v : ℚ), strVal s = some v →
        pct_to_float (.str s) = some (if 0 ≤ v ∧ v ≤ 1.5 then v else v / 100)) ∧
    (∀ v : ℚ, pct_to_float (.num v) = some (if 0 ≤ v ∧ v ≤ 1.5 then v else v / 100)) ∧
    pct_to_float (.str "27.3".toList) = some 0.273 ∧
    pct_to_float (.num 27.3) = some 0.273 ∧
    pct_to_float (.num 0.273) = some 0.273 := by
  refine ⟨rfl, ?_, ?_, ?_, ?_, ?_, ?_⟩
  · intro s h; simp [pct_to_float, h]
  · intro s v h; simp only [pct_to_float, h]; split <;> simp
  · intro v; simp only [pct_to_float]; split <;> simp
  · simp +decide [pct_to_float, strVal, removePct, strip, lstrip, rstrip, pyFloat,
      parseDec, natOfDigits, isSpace, List.dropWhile_cons, List.filter]
    norm_num
  · norm_num [pct_to_float]
  · norm_num [pct_to_float]

/-- Closed instantiation of the conditional parts of `C1_pct_to_float_spec`:
the non-parsing string `"n/a"` and the parsed string `"200"` (value 200,
outside `[0, 1.5]`, hence divided by 100). -/
theorem C1_pct_to_float_spec_witness :
    pct_to_float (.str "n/a".toList) = none ∧
    pct_to_float (.str "200".toList) =
      some (if 0 ≤ (200 : ℚ) ∧ (200 : ℚ) ≤ 1.5 then (200 : ℚ) else 200 / 100) :=
  ⟨C1_pct_to_float_spec.2.1 "n/a".toList rfl,
   C1_pct_to_float_spec.2.2.1 "200".toList 200 rfl⟩

/-- C2: `ratio_to_float` maps missing to missing, non-parsing strings to
missing, and any parsed or numeric value `v` to `v / 100` when
`v > 1.5` and `v` unchanged otherwise.  In particular `34.5`
normalizes to `0.345` and `0.345` is unchanged. -/
theorem C2_ratio_to_float_spec :
    ratio_to_float .missing = none ∧
    (∀ s : PyStr, strVal s = none → ratio_to_float (.str s) = none) ∧
    (∀ (s : PyStr) (v : ℚ), strVal s = some v →
        ratio_to_float (.str s) = some (if v > 1.5 then v / 100 else v)) ∧
    (∀ v : ℚ, ratio_to_float (.num v) = some (if v > 1.5 then v / 100 else v)) ∧
    ratio_to_float (.num 34.5) = some 0.345 ∧
    ratio_to_float (.num 0.345) = some 0.345 := by
  refine ⟨rfl, ?_, ?_, ?_, ?_, ?_⟩
  · intro s h; simp [ratio_to_float, h]
  · intro s v h; simp only [ratio_to_float, h]; split <;> simp
  · intro v; simp only [ratio_to_float]; split <;> simp
  · norm_num [ratio_to_float]
  · norm_num [ratio_to_float]

/-- Closed instantiation of the conditional parts of
`C2_ratio_to_float_spec`: the non-parsing string `"n/a"` and the parsed
string `"34.5"`. -/
theorem C2_ratio_to_float_spec_witness :
    ratio_to_float (.str "n/a".toList) = none ∧
    ratio_to_float (.str "34.5".toList) =
      some (if (34.5 : ℚ) > 1.5 then (34.5 : ℚ) / 100 else 34.5) :=
  ⟨C2_ratio_to_float_spec.2.1 "n/a".toList rfl,
   C2_ratio_to_float_spec.2.2.1 "34.5".toList 34.5 (by
     simp +decide [strVal, removePct, strip, lstrip, rstrip, pyFloat,
       parseDec, natOfDigits, isSpace, List.dropWhile_cons, List.filter]
     norm_num)⟩

end MLB

/-! ### C4: the column resolver -/

namespace MLB

/-- C4 (counterexample): with columns `["efg%", "eFG%"]` and aliases
`["EFG%", "eFG%"]`, the alias `"eFG%"` is exactly equal to a column,
yet `find_column` returns `"efg%"` — the case-insensitive match of the
earlier alias — which is not an exact match of any alias.  The claim's
"exact match first, then case-insensitive match" priority holds per
alias, not across the whole alias list. -/
theorem C4_find_column_counterexample :
    find_column ["efg%".toList, "eFG%".toList] ["EFG%".toList, "eFG%".toList]
      = some "efg%".toList ∧
    ["efg%".toList, "eFG%".toList].contains "eFG%".toList = true ∧
    ["EFG%".toList, "eFG%".toList].contains "eFG%".toList = true ∧
    ["EFG%".toList, "eFG%".toList].contains "efg%".toList = false := by
  decide

/-- C4 (amended): `find_column` scans the aliases in order and, for each
single alias, tries an exact match first and then the first column
matching case-insensitively (after stripping); the first alias with any
match wins, so an earlier alias's case-insensitive match can shadow a
later alias's exact match.  It returns `none` exactly when no alias
matches any column exactly or case-insensitively; in particular,
whenever some alias is exactly equal to some column, a column is
returned (though possibly not an exact match of an alias). -/
theorem C4_find_column_amended :
    (∀ cols : List PyStr, find_column cols [] = none) ∧
    (∀ (cols : List PyStr) (a : PyStr) (rest : List PyStr),
        cols.contains a = true → find_column cols (a :: rest) = some a) ∧
    (∀ (cols : List PyStr) (a : PyStr) (rest : List PyStr) (c : PyStr),
        cols.contains a = false →
        cols.find? (fun col => lowerStr (strip col) == lowerStr (strip a)) = some c →
        find_column cols (a :: rest) = some c) ∧
    (∀ (cols : List PyStr) (a : PyStr) (rest : List PyStr),
        cols.contains a = false →
        cols.find? (fun col => lowerStr (strip col) == lowerStr (strip a)) = none →
        find_column cols (a :: rest) = find_column cols rest) ∧
    (∀ (cols al : List PyStr),
        find_column cols al = none ↔
          ∀ a ∈ al, cols.contains a = false ∧
            ∀ c ∈ cols, lowerStr (strip c) ≠ lowerStr (strip a)) ∧
    (∀ (cols al : List PyStr) (a : PyStr), a ∈ al → cols.contains a = true →
        (find_column cols al).isSome = true) := by
  have hiff : ∀ (cols al : List PyStr),
      find_column cols al = none ↔
        ∀ a ∈ al, cols.contains a = false ∧
          ∀ c ∈ cols, lowerStr (strip c) ≠ lowerStr (strip a) := by
    intro cols al
    induction al with
    | nil => simp [find_column]
    | cons a rest ih =>
        by_cases hc : cols.contains a = true
        · simp only [find_column, hc, if_true]
          simp only [List.mem_cons]
          constructor
          · intro h; cases h
          · intro h
            have := (h a (Or.inl rfl)).1
            rw [hc] at this; cases this
        · have hc' : cols.contains a = false := by
            cases h : cols.contains a
            · rfl
            · exact absurd h hc
          simp only [find_column, hc', Bool.false_eq_true, if_false]
          cases hf : cols.find? (fun col => lowerStr (strip col) == lowerStr (strip a)) with
          | some c =>
              have hmem := List.mem_of_find?_eq_some hf
              have hp := List.find?_some hf
              rw [beq_iff_eq] at hp
              constructor
              · intro h; cases h
              · intro h
                exact absurd hp ((h a (List.mem_cons_self a rest)).2 c hmem)
          | none =>
              rw [List.find?_eq_none] at hf
              constructor
              · intro h
                intro b hb
                rcases List.mem_cons.mp hb with rfl | hb'
                · refine ⟨hc', ?_⟩
                  intro c hcmem heq
                  have := hf c hcmem
                  rw [beq_iff_eq] at this
                  exact this heq
                · exact (ih.mp h) b hb'
              · intro h
                exact ih.mpr (fun b hb => h b (List.mem_cons_of_mem a hb))
  refine ⟨fun cols => rfl, ?_, ?_, ?_, hiff, ?_⟩
  · intro cols a rest h; simp only [find_column, h, if_true]
  · intro cols a rest c h hf
    simp only [find_column, h, Bool.false_eq_true, if_false, hf]
  · intro cols a rest h hf
    simp only [find_column, h, Bool.false_eq_true, if_false, hf]
  · intro cols al a hmem hc
    cases hres : find_column cols al with
    | some c => rfl
    | none =>
        have := ((hiff cols al).mp hres a hmem).1
        rw [hc] at this; cases this

/-- Closed instantiation of `C4_find_column_amended`: the exact-match
clause at columns `["team"]`, aliases `["team"]`, and the none-clause
at empty aliases. -/
theorem C4_find_column_amended_witness :
    find_column ["team".toList] ["team".toList] = some "team".toList ∧
    find_column ["team".toList] [] = none :=
  ⟨C4_find_column_amended.2.1 ["team".toList] "team".toList [] (by decide),
   C4_find_column_amended.1 ["team".toList]⟩

end MLB

/-! ### C3: the bound invariant on the imported table -/

namespace MLB

/-- An optional value is missing or lies in `[lo, hi]`. -/
def inRangeOpt (lo hi : ℚ) (o : Option ℚ) : Prop :=
  o = none ∨ ∃ v, o = some v ∧ lo ≤ v ∧ v ≤ hi

/-- `clip01` lands in `[0, 1]` (or stays missing). -/
theorem clip01_inRange (o : Option ℚ) : inRangeOpt 0 1 (clip01 o) := by
  cases o with
  | none => exact Or.inl rfl
  | some v =>
      refine Or.inr ⟨max 0 (min 1 v), rfl, le_max_left _ _, ?_⟩
      exact max_le (by norm_num) (min_le_left _ _)

/-- `clip015` lands in `[0, 1.5]` (or stays missing). -/
theorem clip015_inRange (o : Option ℚ) : inRangeOpt 0 1.5 (clip015 o) := by
  cases o with
  | none => exact Or.inl rfl
  | some v =>
      refine Or.inr ⟨max 0 (min 1.5 v), rfl, le_max_left _ _, ?_⟩
      exact max_le (by norm_num) (min_le_left _ _)

/-- C3: whenever column resolution succeeds, the import succeeds
regardless of the cell values (out-of-range values are absorbed
silently, with no error), and in every row of the output table each of
the six percentage-like fields is missing or in `[0, 1]` and each of
the two FTAr rate fields is missing or in `[0, 1.5]`. -/
theorem C3_import_bounds :
    (∀ (t : RawTable) (res : Resolved), resolveAll t.columns = .ok res →
        load_and_normalize t = .ok (t.rows.map (buildRow t res))) ∧
    (∀ (t : RawTable) (rows : List OutRow), load_and_normalize t = .ok rows →
        ∀ r ∈ rows,
          inRangeOpt 0 1 r.off_efg ∧ inRangeOpt 0 1 r.off_orb ∧
          inRangeOpt 0 1 r.off_tov ∧ inRangeOpt 0 1 r.def_efg ∧
          inRangeOpt 0 1 r.def_orb ∧ inRangeOpt 0 1 r.def_tov ∧
          inRangeOpt 0 1.5 r.off_ftar ∧ inRangeOpt 0 1.5 r.def_ftar) := by
  constructor
  · intro t res h
    simp [load_and_normalize, h, Except.map]
  · intro t rows h r hr
    unfold load_and_normalize at h
    cases hres : resolveAll t.columns with
    | error e => rw [hres] at h; cases h
    | ok res =>
        rw [hres] at h
        simp only [Except.map] at h
        cases h
        rcases List.mem_map.mp hr with ⟨raw, _, rfl⟩
        exact ⟨clip01_inRange _, clip01_inRange _, clip01_inRange _,
               clip01_inRange _, clip01_inRange _, clip01_inRange _,
               clip015_inRange _, clip015_inRange _⟩

/-- A concrete valid raw export used to instantiate the import
theorems; the `eFG%` cell `200` and the `FTAr (Def)` cell `-3` are
deliberately out of range after normalization. -/
def sampleTable : RawTable :=
  { columns := ["team".toList, "ORTG".toList, "DRTG".toList, "EFG%".toList,
                "ORB%".toList, "FTAr".toList, "TO%".toList, "EFG% (Def)".toList,
                "ORB% (Def)".toList, "FTAr (Def)".toList, "TO% (Def)".toList]
    rows := [[.str "Boston Celtics".toList, .num 118, .num 111, .num 200,
              .str "27.3".toList, .num 21, .str "12.5".toList, .num 53,
              .str "71.2".toList, .num (-3), .str "13.1".toList]] }

/-- The column resolution of `sampleTable` (checked by `rfl` below). -/
def sampleResolved : Resolved :=
  { team := "team".toList
    ortgCol := "ORTG".toList
    drtgCol := "DRTG".toList
    netrtgCol := none
    offEFG := "EFG%".toList
    offORB := "ORB%".toList
    offFTAr := "FTAr".toList
    offTOV := "TO%".toList
    defEFG := "EFG% (Def)".toList
    defORB := "ORB% (Def)".toList
    defFTAr := "FTAr (Def)".toList
    defTOV := "TO% (Def)".toList }

/-- The single raw row of `sampleTable`. -/
def sampleRow : List Cell :=
  [.str "Boston Celtics".toList, .num 118, .num 111, .num 200,
   .str "27.3".toList, .num 21, .str "12.5".toList, .num 53,
   .str "71.2".toList, .num (-3), .str "13.1".toList]

/-- Closed instantiation of `C3_import_bounds` at `sampleTable`. -/
theorem C3_import_bounds_witness :
    load_and_normalize sampleTable
      = .ok (sampleTable.rows.map (buildRow sampleTable sampleResolved)) ∧
    (inRangeOpt 0 1 (buildRow sampleTable sampleResolved sampleRow).off_efg ∧
     inRangeOpt 0 1 (buildRow sampleTable sampleResolved sampleRow).off_orb ∧
     inRangeOpt 0 1 (buildRow sampleTable sampleResolved sampleRow).off_tov ∧
     inRangeOpt 0 1 (buildRow sampleTable sampleResolved sampleRow).def_efg ∧
     inRangeOpt 0 1 (buildRow sampleTable sampleResolved sampleRow).def_orb ∧
     inRangeOpt 0 1 (buildRow sampleTable sampleResolved sampleRow).def_tov ∧
     inRangeOpt 0 1.5 (buildRow sampleTable sampleResolved sampleRow).off_ftar ∧
     inRangeOpt 0 1.5 (buildRow sampleTable sampleResolved sampleRow).def_ftar) :=
  have h1 : load_and_normalize sampleTable
      = .ok (sampleTable.rows.map (buildRow sampleTable sampleResolved)) :=
    C3_import_bounds.1 sampleTable sampleResolved rfl
  ⟨h1, C3_import_bounds.2 sampleTable _ h1
    (buildRow sampleTable sampleResolved sampleRow)
    (List.mem_map_of_mem _ (by simp [sampleTable, sampleRow]))⟩

end MLB

/-! ### C5: unresolvable required column aborts before any write -/

namespace MLB

/-- If some required canonical field (any `ALIASES` entry except
`NetRTG`) is unresolvable, `resolveAll` raises an error that names a
required canonical field together with its alias list, and that field
is indeed unresolvable. -/
theorem resolveAll_error_of_missing (cols : List PyStr) (canon : PyStr)
    (al : List PyStr) (hmem : (canon, al) ∈ ALIASES)
    (hne : canon ≠ "NetRTG".toList) (hnone : find_column cols al = none) :
    ∃ e : ImportErr, resolveAll cols = .error e ∧
      (e.1, e.2) ∈ ALIASES ∧ e.1 ≠ "NetRTG".toList ∧
      find_column cols e.2 = none := by
  cases h1 : find_column cols aliasesTeam with
  | none =>
      exact ⟨("team".toList, aliasesTeam),
        by simp [resolveAll, resolveReq, h1, Bind.bind, Except.bind], by decide, by decide, h1⟩
  | some c1 =>
  cases h2 : find_column cols aliasesORTG with
  | none =>
      exact ⟨("ORTG".toList, aliasesORTG),
        by simp [resolveAll, resolveReq, h1, h2, Bind.bind, Except.bind, Functor.map, Except.map], by decide, by decide, h2⟩
  | some c2 =>
  cases h3 : find_column cols aliasesDRTG with
  | none =>
      exact ⟨("DRTG".toList, aliasesDRTG),
        by simp [resolveAll, resolveReq, h1, h2, h3, Bind.bind, Except.bind, Functor.map, Except.map], by decide, by decide, h3⟩
  | some c3 =>
  cases h4 : find_column cols aliasesOffEFG with
  | none =>
      exact ⟨("Off_eFG".toList, aliasesOffEFG),
        by simp [resolveAll, resolveReq, h1, h2, h3, h4, Bind.bind, Except.bind, Functor.map, Except.map], by decide, by decide, h4⟩
  | some c4 =>
  cases h5 : find_column cols aliasesOffORB with
  | none =>
      exact ⟨("Off_ORB".toList, aliasesOffORB),
        by simp [resolveAll, resolveReq, h1, h2, h3, h4, h5, Bind.bind, Except.bind, Functor.map, Except.map], by decide, by decide, h5⟩
  | some c5 =>
  cases h6 : find_column cols aliasesOffFTAr with
  | none =>
      exact ⟨("Off_FTAr".toList, aliasesOffFTAr),
        by simp [resolveAll, resolveReq, h1, h2, h3, h4, h5, h6, Bind.bind, Except.bind, Functor.map, Except.map], by decide, by decide, h6⟩
  | some c6 =>
  cases h7 : find_column cols aliasesOffTOV with
  | none =>
      exact ⟨("Off_TOV".toList, aliasesOffTOV),
        by simp [resolveAll, resolveReq, h1, h2, h3, h4, h5, h6, h7, Bind.bind, Except.bind, Functor.map, Except.map],
        by decide, by decide, h7⟩
  | some c7 =>
  cases h8 : find_column cols aliasesDefEFG with
  | none =>
      exact ⟨("Def_eFG".toList, aliasesDefEFG),
        by simp [resolveAll, resolveReq, h1, h2, h3, h4, h5, h6, h7, h8, Bind.bind, Except.bind, Functor.map, Except.map],
        by decide, by decide, h8⟩
  | some c8 =>
  cases h9 : find_column cols aliasesDefORB with
  | none =>
      exact ⟨("Def_ORB".toList, aliasesDefORB),
        by simp [resolveAll, resolveReq, h1, h2, h3, h4, h5, h6, h7, h8, h9, Bind.bind, Except.bind, Functor.map, Except.map],
        by decide, by decide, h9⟩
  | some c9 =>
  cases h10 : find_column cols aliasesDefFTAr with
  | none =>
      exact ⟨("Def_FTAr".toList, aliasesDefFTAr),
        by simp [resolveAll, resolveReq, h1, h2, h3, h4, h5, h6, h7, h8, h9, h10, Bind.bind, Except.bind, Functor.map, Except.map],
        by decide, by decide, h10⟩
  | some c10 =>
  cases h11 : find_column cols aliasesDefTOV with
  | none =>
      exact ⟨("Def_TOV".toList, aliasesDefTOV),
        by simp [resolveAll, resolveReq, h1, h2, h3, h4, h5, h6, h7, h8, h9, h10, h11, Bind.bind, Except.bind, Functor.map, Except.map],
        by decide, by decide, h11⟩
  | some c11 =>
      exfalso
      simp only [ALIASES, List.mem_cons, List.not_mem_nil, or_false,
        Prod.mk.injEq] at hmem
      rcases hmem with ⟨he, ha⟩ | ⟨he, ha⟩ | ⟨he, ha⟩ | ⟨he, ha⟩ | ⟨he, ha⟩ |
        ⟨he, ha⟩ | ⟨he, ha⟩ | ⟨he, ha⟩ | ⟨he, ha⟩ | ⟨he, ha⟩ | ⟨he, ha⟩ | ⟨he, ha⟩
      · rw [ha] at hnone; rw [hnone] at h1; cases h1
      · rw [ha] at hnone; rw [hnone] at h2; cases h2
      · rw [ha] at hnone; rw [hnone] at h3; cases h3
      · exact hne (by rw [he])
      · rw [ha] at hnone; rw [hnone] at h4; cases h4
      · rw [ha] at hnone; rw [hnone] at h5; cases h5
      · rw [ha] at hnone; rw [hnone] at h6; cases h6
      · rw [ha] at hnone; rw [hnone] at h7; cases h7
      · rw [ha] at hnone; rw [hnone] at h8; cases h8
      · rw [ha] at hnone; rw [hnone] at h9; cases h9
      · rw [ha] at hnone; rw [hnone] at h10; cases h10
      · rw [ha] at hnone; rw [hnone] at h11; cases h11

/-- C5: whenever some required canonical field (any `ALIASES` entry
other than `NetRTG`) cannot be resolved against the raw table's
columns, the whole run fails with an error naming a required canonical
field and its accepted aliases, and the processed directory is returned
exactly as it was — no current CSV, dated CSV or JSON snapshot is
written (all-or-nothing). -/
theorem C5_abort_before_write (t : RawTable) (stamp : PyStr) (fs : FS)
    (canon : PyStr) (al : List PyStr) (hmem : (canon, al) ∈ ALIASES)
    (hne : canon ≠ "NetRTG".toList) (hnone : find_column t.columns al = none) :
    ∃ e : ImportErr, mainRun t stamp fs = (some e, fs) ∧
      (e.1, e.2) ∈ ALIASES ∧ e.1 ≠ "NetRTG".toList ∧
      find_column t.columns e.2 = none := by
  obtain ⟨e, herr, hm, hn, hf⟩ :=
    resolveAll_error_of_missing t.columns canon al hmem hne hnone
  exact ⟨e, by simp [mainRun, load_and_normalize, herr, Except.map], hm, hn, hf⟩

/-- `sampleTable` with its `ORTG` column dropped: the offensive-rating
field is unresolvable. -/
def missingColTable : RawTable :=
  { columns := ["team".toList, "DRTG".toList, "EFG%".toList,
                "ORB%".toList, "FTAr".toList, "TO%".toList, "EFG% (Def)".toList,
                "ORB% (Def)".toList, "FTAr (Def)".toList, "TO% (Def)".toList]
    rows := sampleTable.rows }

/-- Closed instantiation of `C5_abort_before_write`: dropping the
`ORTG` column makes the run fail and leaves a pre-populated processed
directory untouched. -/
theorem C5_abort_before_write_witness :
    ∃ e : ImportErr,
      mainRun missingColTable "20251012".toList [(currentName, ⟨[], []⟩)]
        = (some e, [(currentName, ⟨[], []⟩)]) ∧
      (e.1, e.2) ∈ ALIASES ∧ e.1 ≠ "NetRTG".toList ∧
      find_column missingColTable.columns e.2 = none :=
  C5_abort_before_write missingColTable "20251012".toList
    [(currentName, ⟨[], []⟩)] "ORTG".toList aliasesORTG
    (by decide) (by decide) (by decide)

end MLB

/-! ### C10: the loader's required-column set -/

namespace MLB

/-- On a directory holding only the current file, the loader reduces to
the schema check on that file (there is no dated snapshot, hence no
stamp and no staleness warning). -/
theorem load_current_only (csv : CsvFile) (today maxAge : ℤ) :
    load_nba_team_factors [(currentName, csv)] today maxAge =
      (if (REQ.filter (fun r => !((csv.columns.map lowerStr).contains r))).isEmpty
       then .ok (csv, none)
       else .error (.missingCols
         (REQ.filter (fun r => !((csv.columns.map lowerStr).contains r))))) := rfl

/-- C10: the loader requires exactly the twelve lower-cased names of
`REQ` — `team_name` and `source` are not among them: any current file
whose lower-cased columns include all twelve is returned without error
(even with no `team_name`/`source` column), while a file lacking some
of the twelve fails with an error listing exactly the missing ones. -/
theorem C10_loader_required_columns :
    REQ = ["team".toList, "ortg".toList, "drtg".toList, "netrtg".toList,
           "off_efg".toList, "off_orb".toList, "off_tov".toList, "off_ftar".toList,
           "def_efg".toList, "def_orb".toList, "def_tov".toList, "def_ftar".toList] ∧
    "team_name".toList ∉ REQ ∧ "source".toList ∉ REQ ∧
    (∀ (csv : CsvFile) (today maxAge : ℤ),
        (∀ r ∈ REQ, (csv.columns.map lowerStr).contains r = true) →
        load_nba_team_factors [(currentName, csv)] today maxAge = .ok (csv, none)) ∧
    (∀ (csv : CsvFile) (today maxAge : ℤ) (r : PyStr), r ∈ REQ →
        (csv.columns.map lowerStr).contains r = false →
        ∃ ms : List PyStr,
          load_nba_team_factors [(currentName, csv)] today maxAge
            = .error (.missingCols ms) ∧
          r ∈ ms ∧
          ∀ m, m ∈ ms ↔ m ∈ REQ ∧ (csv.columns.map lowerStr).contains m = false) := by
  refine ⟨rfl, by decide, by decide, ?_, ?_⟩
  · intro csv today maxAge hall
    have hfilter : REQ.filter (fun r => !((csv.columns.map lowerStr).contains r)) = [] := by
      rw [List.filter_eq_nil_iff]
      intro a ha
      rw [hall a ha]
      decide
    rw [load_current_only, hfilter]
    rfl
  · intro csv today maxAge r hr hmiss
    have hmem : r ∈ REQ.filter (fun x => !((csv.columns.map lowerStr).contains x)) :=
      List.mem_filter.mpr ⟨hr, by rw [hmiss]; decide⟩
    have hne : (REQ.filter (fun x => !((csv.columns.map lowerStr).contains x))).isEmpty
        = false := by
      cases hl : REQ.filter (fun x => !((csv.columns.map lowerStr).contains x)) with
      | nil => rw [hl] at hmem; cases hmem
      | cons a l => rfl
    refine ⟨REQ.filter (fun x => !((csv.columns.map lowerStr).contains x)), ?_, hmem, ?_⟩
    · rw [load_current_only, hne]
      rfl
    · intro m
      rw [List.mem_filter]
      constructor
      · rintro ⟨hm, hp⟩
        refine ⟨hm, ?_⟩
        cases h : (csv.columns.map lowerStr).contains m with
        | false => rfl
        | true => rw [h] at hp; cases hp
      · rintro ⟨hm, hp⟩
        exact ⟨hm, by rw [hp]; decide⟩

/-- Closed instantiation of `C10_loader_required_columns`: a current
file with the twelve required columns in mixed case and no
`team_name`/`source` column loads successfully; the same file without
its `ORTG` column fails with `ortg` among the listed missing columns. -/
theorem C10_loader_required_columns_witness :
    load_nba_team_factors
      [(currentName,
        ⟨["Team".toList, "ORTG".toList, "DRTG".toList, "NetRTG".toList,
          "Off_eFG".toList, "Off_ORB".toList, "Off_TOV".toList, "Off_FTAr".toList,
          "Def_eFG".toList, "Def_ORB".toList, "Def_TOV".toList, "Def_FTAr".toList],
         []⟩)] 700000 3
      = .ok (⟨["Team".toList, "ORTG".toList, "DRTG".toList, "NetRTG".toList,
               "Off_eFG".toList, "Off_ORB".toList, "Off_TOV".toList, "Off_FTAr".toList,
               "Def_eFG".toList, "Def_ORB".toList, "Def_TOV".toList, "Def_FTAr".toList],
              []⟩, none) ∧
    ∃ ms : List PyStr,
      load_nba_team_factors
        [(currentName,
          ⟨["Team".toList, "DRTG".toList, "NetRTG".toList,
            "Off_eFG".toList, "Off_ORB".toList, "Off_TOV".toList, "Off_FTAr".toList,
            "Def_eFG".toList, "Def_ORB".toList, "Def_TOV".toList, "Def_FTAr".toList],
           []⟩)] 700000 3
        = .error (.missingCols ms) ∧
      "ortg".toList ∈ ms ∧
      ∀ m, m ∈ ms ↔ m ∈ REQ ∧
        (["Team".toList, "DRTG".toList, "NetRTG".toList,
          "Off_eFG".toList, "Off_ORB".toList, "Off_TOV".toList, "Off_FTAr".toList,
          "Def_eFG".toList, "Def_ORB".toList, "Def_TOV".toList,
          "Def_FTAr".toList].map lowerStr).contains m = false :=
  ⟨C10_loader_required_columns.2.2.2.1 _ 700000 3 (by decide),
   C10_loader_required_columns.2.2.2.2 _ 700000 3 "ortg".toList (by decide) (by decide)⟩

end MLB

/-! ### C6: loader file selection -/

namespace MLB

/-- `lexLt` is irreflexive. -/
theorem lexLt_irrefl (a : PyStr) : lexLt a a = false := by
  induction a with
  | nil => rfl
  | cons c cs ih => simp [lexLt, ih]

/-- `lexLt` is transitive. -/
theorem lexLt_trans : ∀ a b c : PyStr,
    lexLt a b = true → lexLt b c = true → lexLt a c = true := by
  intro a
  induction a with
  | nil =>
      intro b c hab hbc
      cases c with
      | nil => cases b <;> simp [lexLt] at hab hbc
      | cons x xs => rfl
  | cons x xs ih =>
      intro b c hab hbc
      cases b with
      | nil => simp [lexLt] at hab
      | cons y ys =>
          cases c with
          | nil => simp [lexLt] at hbc
          | cons z zs =>
              simp only [lexLt] at hab hbc ⊢
              by_cases hxy : x = y
              · subst hxy
                simp only [if_true] at hab
                by_cases hyz : x = z
                · subst hyz
                  simp only [if_true] at hbc ⊢
                  exact ih ys zs hab hbc
                · simp only [hyz, if_false] at hbc ⊢
                  exact hbc
              · simp only [hxy, if_false] at hab
                rw [decide_eq_true_iff] at hab
                by_cases hyz : y = z
                · subst hyz
                  simp only [hxy, if_false]
                  rw [decide_eq_true_iff]
                  exact hab
                · simp only [hyz, if_false] at hbc
                  rw [decide_eq_true_iff] at hbc
                  have hxz : x ≠ z := fun h => absurd (h ▸ hab) (not_lt_of_gt hbc)
                  simp only [hxz, if_false]
                  rw [decide_eq_true_iff]
                  exact lt_trans hab hbc

/-- `lexLt` is total: two strings not related by `lexLt` are equal. -/
theorem lexLt_total : ∀ a b : PyStr,
    lexLt a b = false → lexLt b a = true ∨ a = b := by
  intro a
  induction a with
  | nil =>
      intro b hab
      cases b with
      | nil => exact Or.inr rfl
      | cons y ys => simp [lexLt] at hab
  | cons x xs ih =>
      intro b hab
      cases b with
      | nil => exact Or.inl rfl
      | cons y ys =>
          simp only [lexLt] at hab ⊢
          by_cases hxy : x = y
          · subst hxy
            simp only [if_true] at hab ⊢
            rcases ih ys hab with h | h
            · exact Or.inl h
            · exact Or.inr (by rw [h])
          · simp only [hxy, if_false] at hab
            rw [decide_eq_false_iff_not] at hab
            have hyx : y < x := by
              rcases lt_or_ge y x with h | h
              · exact h
              · rcases lt_or_eq_of_le h with h' | h'
                · exact absurd h' hab
                · exact absurd h' hxy
            refine Or.inl ?_
            have hne : ¬(y = x) := fun h => hxy h.symm
            simp only [hne, if_false]
            rw [decide_eq_true_iff]
            exact hyx

/-- The fold inside `latest_snapshot` returns an element of the list
(or the accumulator) that no listed element lexicographically exceeds. -/
theorem foldl_max_spec : ∀ (l : List PyStr) (acc : PyStr),
    ∃ p, l.foldl
        (fun acc' n =>
          match acc' with
          | none => some n
          | some m => some (if lexLt m n then n else m))
        (some acc) = some p ∧
      (p = acc ∨ p ∈ l) ∧ lexLt p acc = false ∧ ∀ q ∈ l, lexLt p q = false := by
  intro l
  induction l with
  | nil =>
      intro acc
      exact ⟨acc, rfl, Or.inl rfl, lexLt_irrefl acc, by simp⟩
  | cons n rest ih =>
      intro acc
      obtain ⟨p, hfold, hmem, hacc, hall⟩ := ih (if lexLt acc n then n else acc)
      refine ⟨p, hfold, ?_, ?_, ?_⟩
      · by_cases h : lexLt acc n = true
        · rw [h] at hmem
          simp only [if_true] at hmem
          rcases hmem with rfl | hm
          · exact Or.inr (List.mem_cons_self _ _)
          · exact Or.inr (List.mem_cons_of_mem _ hm)
        · rw [Bool.not_eq_true] at h
          rw [h] at hmem
          simp only [Bool.false_eq_true, if_false] at hmem
          rcases hmem with rfl | hm
          · exact Or.inl rfl
          · exact Or.inr (List.mem_cons_of_mem _ hm)
      · by_cases h : lexLt acc n = true
        · rw [h] at hacc
          simp only [if_true] at hacc
          cases hpa : lexLt p acc with
          | false => rfl
          | true => rw [lexLt_trans p acc n hpa h] at hacc; cases hacc
        · rw [Bool.not_eq_true] at h
          rw [h] at hacc
          simpa using hacc
      · intro q hq
        rcases List.mem_cons.mp hq with rfl | hq'
        · by_cases h : lexLt acc q = true
          · rw [h] at hacc
            simpa using hacc
          · rw [Bool.not_eq_true] at h
            rw [h] at hacc
            simp only [Bool.false_eq_true, if_false] at hacc
            cases hpq : lexLt p q with
            | false => rfl
            | true =>
                rcases lexLt_total acc q h with hqa | rfl
                · have hfalse := lexLt_trans p q acc hpq hqa
                  rw [hfalse] at hacc; cases hacc
                · rw [hpq] at hacc; cases hacc
        · exact hall q hq'

end MLB

namespace MLB

/-- Characterization of `_latest_snapshot`: `none` exactly when no name
matches the glob; otherwise it returns a matching name that no other
matching name lexicographically exceeds. -/
theorem latest_snapshot_spec (names : List PyStr) :
    (latest_snapshot names = none ↔ ∀ n ∈ names, matchesSnapshotGlob n = false) ∧
    (∀ p, latest_snapshot names = some p →
        p ∈ names ∧ matchesSnapshotGlob p = true ∧
        ∀ q ∈ names, matchesSnapshotGlob q = true → lexLt p q = false) := by
  cases hl : names.filter matchesSnapshotGlob with
  | nil =>
      constructor
      · rw [show latest_snapshot names = none by rw [latest_snapshot, hl]; rfl]
        simp only [true_iff]
        intro n hn
        cases hg : matchesSnapshotGlob n with
        | false => rfl
        | true =>
            have : n ∈ names.filter matchesSnapshotGlob := List.mem_filter.mpr ⟨hn, hg⟩
            rw [hl] at this
            cases this
      · intro p hp
        rw [latest_snapshot, hl] at hp
        cases hp
  | cons a xs =>
      obtain ⟨p, hfold, hmem, hacc, hall⟩ := foldl_max_spec xs a
      have hlat : latest_snapshot names = some p := by
        rw [latest_snapshot, hl]
        exact hfold
      have hpin : p ∈ names.filter matchesSnapshotGlob := by
        rw [hl]
        rcases hmem with rfl | hm
        · exact List.mem_cons_self _ _
        · exact List.mem_cons_of_mem _ hm
      constructor
      · rw [hlat]
        constructor
        · intro h; cases h
        · intro h
          exfalso
          have ha : a ∈ names.filter matchesSnapshotGlob := by
            rw [hl]; exact List.mem_cons_self _ _
          have := (List.mem_filter.mp ha).2
          rw [h a (List.mem_filter.mp ha).1] at this
          cases this
      · intro p' hp'
        rw [hlat] at hp'
        cases hp'
        refine ⟨(List.mem_filter.mp hpin).1, (List.mem_filter.mp hpin).2, ?_⟩
        intro q hq hqg
        have hqf : q ∈ names.filter matchesSnapshotGlob := List.mem_filter.mpr ⟨hq, hqg⟩
        rw [hl] at hqf
        rcases List.mem_cons.mp hqf with rfl | hqx
        · exact hacc
        · exact hall q hqx

/-- C6 (amended): the loader reads the current file when it exists;
otherwise it reads the lexicographically last file matching the glob
`nba_team_factors_[0-9]*.csv` — a digit right after the prefix and a
`.csv` suffix, the characters in between arbitrary (not necessarily all
digits) — and fails with the not-found error only when no current file
and no glob-matching file exists; whatever is returned on success is
the chosen file's content. -/
theorem C6_loader_selection_amended :
    (∀ (fs : FS) (today maxAge : ℤ) (out : CsvFile) (w : Option ℤ),
        (fs.map Prod.fst).contains currentName = true →
        load_nba_team_factors fs today maxAge = .ok (out, w) →
        List.lookup currentName fs = some out) ∧
    (∀ (fs : FS) (today maxAge : ℤ),
        (fs.map Prod.fst).contains currentName = false →
        (∀ n ∈ fs.map Prod.fst, matchesSnapshotGlob n = false) →
        load_nba_team_factors fs today maxAge = .error .notFound) ∧
    (∀ (fs : FS) (today maxAge : ℤ) (p : PyStr) (out : CsvFile) (w : Option ℤ),
        (fs.map Prod.fst).contains currentName = false →
        latest_snapshot (fs.map Prod.fst) = some p →
        load_nba_team_factors fs today maxAge = .ok (out, w) →
        List.lookup p fs = some out ∧ p ∈ fs.map Prod.fst ∧
          matchesSnapshotGlob p = true ∧
          ∀ q ∈ fs.map Prod.fst, matchesSnapshotGlob q = true →
            lexLt p q = false) := by
  refine ⟨?_, ?_, ?_⟩
  · intro fs today maxAge out w hc hload
    simp only [load_nba_team_factors, hc, if_true] at hload
    cases hlook : List.lookup currentName fs with
    | none => rw [hlook] at hload; cases hload
    | some csv =>
        rw [hlook] at hload
        cases hsw : staleWarn (fs.map Prod.fst) currentName today maxAge with
        | error e => rw [hsw] at hload; cases hload
        | ok warn =>
            rw [hsw] at hload
            rw [(schemaCheck_ok csv warn w out hload).1]
  · intro fs today maxAge hc hnone
    have hlat : latest_snapshot (fs.map Prod.fst) = none :=
      ((latest_snapshot_spec (fs.map Prod.fst)).1).mpr hnone
    simp only [load_nba_team_factors, hc, Bool.false_eq_true, if_false, hlat]
  · intro fs today maxAge p out w hc hlat hload
    obtain ⟨hpin, hpg, hmax⟩ := (latest_snapshot_spec (fs.map Prod.fst)).2 p hlat
    refine ⟨?_, hpin, hpg, hmax⟩
    simp only [load_nba_team_factors, hc, Bool.false_eq_true, if_false, hlat] at hload
    cases hlook : List.lookup p fs with
    | none => rw [hlook] at hload; cases hload
    | some csv =>
        rw [hlook] at hload
        cases hsw : staleWarn (fs.map Prod.fst) p today maxAge with
        | error e => rw [hsw] at hload; cases hload
        | ok warn =>
            rw [hsw] at hload
            rw [(schemaCheck_ok csv warn w out hload).1]

/-- Closed instantiation of `C6_loader_selection_amended`: with both a
current file and an older dated snapshot present, the current file's
content (the empty-rowed table) is returned; and an empty directory
fails with the not-found error. -/
theorem C6_loader_selection_amended_witness :
    List.lookup currentName
      [(currentName, (⟨REQ, []⟩ : CsvFile)),
       ("nba_team_factors_20250101.csv".toList, ⟨REQ, [[Cell.missing]]⟩)]
      = some (⟨REQ, []⟩ : CsvFile) ∧
    load_nba_team_factors ([] : FS) 0 3 = .error .notFound :=
  ⟨C6_loader_selection_amended.1
      [(currentName, ⟨REQ, []⟩),
       ("nba_team_factors_20250101.csv".toList, ⟨REQ, [[Cell.missing]]⟩)]
      0 3 ⟨REQ, []⟩ none (by decide) (by decide),
   C6_loader_selection_amended.2.1 [] 0 3 (by decide) (by decide)⟩

/-- The file-name pattern the claim's words describe — modelled from the
spec: `nba_team_factors_<digits>.csv` with a nonempty all-digit stamp. -/
def specSnapshotNamePattern (name : PyStr) : Bool :=
  let pfx := "nba_team_factors_".toList
  let sfx := ".csv".toList
  pfx.isPrefixOf name && sfx.isSuffixOf name &&
    (let mid := (name.drop pfx.length).take (name.length - pfx.length - sfx.length)
     !mid.isEmpty && mid.all Char.isDigit)

/-- A processed directory holding only `nba_team_factors_5zz.csv`
(valid schema, empty rows): no current file, and no file named with an
all-digit stamp. -/
def oddNameDir : FS := [("nba_team_factors_5zz.csv".toList, ⟨REQ, []⟩)]

/-- C6 (counterexample): the glob `nba_team_factors_[0-9]*.csv`
constrains only the first character after the prefix to be a digit, so
`nba_team_factors_5zz.csv` is selected although it does not match the
claim's `nba_team_factors_<digits>.csv` pattern: with no current file
and no all-digit-stamped snapshot, the claim requires the not-found
error, but the loader returns the odd file's content. -/
theorem C6_loader_selection_counterexample :
    (oddNameDir.map Prod.fst).contains currentName = false ∧
    (∀ n ∈ oddNameDir.map Prod.fst, specSnapshotNamePattern n = false) ∧
    load_nba_team_factors oddNameDir 700000 3 = .ok (⟨REQ, []⟩, none) ∧
    load_nba_team_factors oddNameDir 700000 3 ≠ .error .notFound := by
  decide

end MLB

/-! ### C7: the staleness warning -/

namespace MLB

/-- When an effective date stamp is determined and parses as a date,
the staleness block yields the computed age as a warning exactly when
it exceeds `max_age_days`, and no error. -/
theorem staleWarn_eq (names : List PyStr) (path : PyStr) (today maxAge : ℤ)
    (st : PyStr) (o : ℤ)
    (hst : (if "current.csv".toList.isSuffixOf path then
              (latest_snapshot names).map stampOf
            else some (stampOf path)) = some st)
    (hdig : (!st.isEmpty && st.all Char.isDigit) = true)
    (hord : parseStampOrdinal st = some o) :
    staleWarn names path today maxAge
      = .ok (if maxAge < today - o then some (today - o) else none) := by
  simp only [staleWarn, hst, hdig, if_true, hord]
  by_cases h : maxAge < today - o
  · simp [h]
  · simp [h]

/-- C7: when the loader's chosen file and stamp produce a parsed date
ordinal `o`, loading succeeds (the warning is non-fatal) and returns
the chosen file's content together with the warning age `today - o`
exactly when that age exceeds `max_age_days`, and no warning otherwise;
moreover the table component of any two successful loads of the same
directory is the same whatever the clock or threshold — the warning
never alters the returned data. -/
theorem C7_staleness_warning :
    (∀ (fs : FS) (today maxAge : ℤ) (path : PyStr) (csv : CsvFile)
        (st : PyStr) (o : ℤ),
        (if (fs.map Prod.fst).contains currentName then some currentName
         else latest_snapshot (fs.map Prod.fst)) = some path →
        List.lookup path fs = some csv →
        (if "current.csv".toList.isSuffixOf path then
           (latest_snapshot (fs.map Prod.fst)).map stampOf
         else some (stampOf path)) = some st →
        (!st.isEmpty && st.all Char.isDigit) = true →
        parseStampOrdinal st = some o →
        REQ.filter (fun r => !((csv.columns.map lowerStr).contains r)) = [] →
        load_nba_team_factors fs today maxAge
          = .ok (csv, if maxAge < today - o then some (today - o) else none)) ∧
    (∀ (fs : FS) (t1 m1 t2 m2 : ℤ) (out1 out2 : CsvFile) (w1 w2 : Option ℤ),
        load_nba_team_factors fs t1 m1 = .ok (out1, w1) →
        load_nba_team_factors fs t2 m2 = .ok (out2, w2) →
        out1 = out2) := by
  constructor
  · intro fs today maxAge path csv st o hpath hlook hst hdig hord hschema
    simp only [load_nba_team_factors, hpath, hlook,
      staleWarn_eq (fs.map Prod.fst) path today maxAge st o hst hdig hord]
    simp only [schemaCheck, hschema, List.isEmpty_nil, if_true]
  · intro fs t1 m1 t2 m2 out1 out2 w1 w2 h1 h2
    simp only [load_nba_team_factors] at h1 h2
    cases hp : (if (fs.map Prod.fst).contains currentName then some currentName
                else latest_snapshot (fs.map Prod.fst)) with
    | none => simp only [hp] at h1; cases h1
    | some path =>
        simp only [hp] at h1 h2
        cases hl : List.lookup path fs with
        | none => simp only [hl] at h1; cases h1
        | some csv =>
            simp only [hl] at h1 h2
            cases hs1 : staleWarn (fs.map Prod.fst) path t1 m1 with
            | error e => simp only [hs1] at h1; cases h1
            | ok warn1 =>
                simp only [hs1] at h1
                cases hs2 : staleWarn (fs.map Prod.fst) path t2 m2 with
                | error e => simp only [hs2] at h2; cases h2
                | ok warn2 =>
                    simp only [hs2] at h2
                    rw [(schemaCheck_ok csv warn1 w1 out1 h1).1,
                        (schemaCheck_ok csv warn2 w2 out2 h2).1]

/-- Closed instantiation of `C7_staleness_warning`: on 2025-10-12 with
`max_age_days = 3`, a snapshot stamped `20251002` (10 days old) loads
with a warning of age 10, while a snapshot stamped `20251012` (today)
loads with no warning. -/
theorem C7_staleness_warning_witness :
    load_nba_team_factors
        [("nba_team_factors_20251002.csv".toList, (⟨REQ, []⟩ : CsvFile))]
        (toOrdinal 2025 10 12) 3
      = .ok ((⟨REQ, []⟩ : CsvFile), some 10) ∧
    load_nba_team_factors
        [("nba_team_factors_20251012.csv".toList, (⟨REQ, []⟩ : CsvFile))]
        (toOrdinal 2025 10 12) 3
      = .ok ((⟨REQ, []⟩ : CsvFile), none) := by
  constructor
  · rw [C7_staleness_warning.1
      [("nba_team_factors_20251002.csv".toList, (⟨REQ, []⟩ : CsvFile))]
      (toOrdinal 2025 10 12) 3 "nba_team_factors_20251002.csv".toList
      (⟨REQ, []⟩ : CsvFile) "20251002".toList (toOrdinal 2025 10 2)
      (by decide) (by decide) (by decide) (by decide) (by decide) (by decide)]
    decide
  · rw [C7_staleness_warning.1
      [("nba_team_factors_20251012.csv".toList, (⟨REQ, []⟩ : CsvFile))]
      (toOrdinal 2025 10 12) 3 "nba_team_factors_20251012.csv".toList
      (⟨REQ, []⟩ : CsvFile) "20251012".toList (toOrdinal 2025 10 12)
      (by decide) (by decide) (by decide) (by decide) (by decide) (by decide)]
    decide

end MLB

/-! ### C9: cleanup behaviour of the normalizers -/

namespace MLB

/-- A whitespace character is not `'%'`. -/
theorem isSpace_ne_pct (c : Char) (h : isSpace c = true) : (c == '%') = false := by
  simp only [isSpace, Bool.or_eq_true, beq_iff_eq] at h
  rcases h with ((((h | h) | h) | h) | h) | h <;> subst h <;> decide

/-- Appending `'%'` commutes with left-stripping. -/
theorem lstrip_append_pct (s : PyStr) : lstrip (s ++ ['%']) = lstrip s ++ ['%'] := by
  simp only [lstrip, List.dropWhile_append]
  split
  · rename_i h
    rw [List.isEmpty_iff] at h
    rw [h]
    rfl
  · rfl

/-- A string ending in `'%'` is unchanged by right-stripping. -/
theorem rstrip_append_pct (s : PyStr) : rstrip (s ++ ['%']) = s ++ ['%'] := by
  simp +decide [rstrip, List.dropWhile_cons]

/-- `strip` of a string with `'%'` appended only strips on the left. -/
theorem strip_append_pct (s : PyStr) : strip (s ++ ['%']) = lstrip s ++ ['%'] := by
  rw [strip, lstrip_append_pct, rstrip_append_pct]

/-- An all-whitespace string left-strips to nothing. -/
theorem lstrip_of_all_space (t : PyStr) (h : t.all isSpace = true) : lstrip t = [] := by
  induction t with
  | nil => rfl
  | cons c cs ih =>
      simp only [List.all_cons, Bool.and_eq_true] at h
      simp [lstrip, List.dropWhile_cons, h.1]
      simpa [lstrip] using ih h.2

/-- Dropping a satisfied prefix: `dropWhile` skips a block that wholly
satisfies the predicate. -/
theorem dropWhile_append_of_all {α : Type} (p : α → Bool) (u v : List α)
    (h : u.all p = true) : (u ++ v).dropWhile p = v.dropWhile p := by
  induction u with
  | nil => rfl
  | cons a l ih =>
      simp only [List.all_cons, Bool.and_eq_true] at h
      simp [List.dropWhile_cons, h.1, ih h.2]

/-- Right-stripping ignores an appended all-whitespace block. -/
theorem rstrip_append_space (w t : PyStr) (h : t.all isSpace = true) :
    rstrip (w ++ t) = rstrip w := by
  simp only [rstrip, List.reverse_append]
  rw [dropWhile_append_of_all isSpace t.reverse w.reverse]
  rw [List.all_eq_true] at h ⊢
  intro x hx
  exact h x (List.mem_reverse.mp hx)

/-- Left-stripping a nonempty-stripped string distributes over append. -/
theorem lstrip_append_of_ne (a t : PyStr) (h : ¬ lstrip a = []) :
    lstrip (a ++ t) = lstrip a ++ t := by
  simp only [lstrip, List.dropWhile_append]
  split
  · rename_i hd
    rw [List.isEmpty_iff] at hd
    exact absurd hd h
  · rfl

/-- `strip` ignores an appended all-whitespace block. -/
theorem strip_append_space (a t : PyStr) (h : t.all isSpace = true) :
    strip (a ++ t) = strip a := by
  by_cases ha : lstrip a = []
  · have hall : (a ++ t).all isSpace = true := by
      rw [List.all_append]
      refine Bool.and_eq_true_iff.mpr ⟨?_, h⟩
      rw [List.all_eq_true]
      intro x hx
      by_contra hx'
      rw [Bool.not_eq_true] at hx'
      have : lstrip a ≠ [] := by
        intro hnil
        have hmem := List.takeWhile_append_dropWhile isSpace a
        rw [show List.dropWhile isSpace a = lstrip a from rfl, hnil,
          List.append_nil] at hmem
        have := List.mem_takeWhile_imp (hmem ▸ hx)
        rw [hx'] at this
        cases this
      exact this ha
    rw [strip, lstrip_of_all_space _ hall, strip, ha]
  · rw [strip, lstrip_append_of_ne a t ha, rstrip_append_space _ _ h, strip]

/-- `pyFloat` ignores an appended all-whitespace block (Python `float`
strips surrounding whitespace itself). -/
theorem pyFloat_append_space (s t : PyStr) (h : t.all isSpace = true) :
    pyFloat (s ++ t) = pyFloat s := by
  simp only [pyFloat, strip_append_space s t h]

/-- `pyFloat` of an all-whitespace string fails. -/
theorem pyFloat_all_space (t : PyStr) (h : t.all isSpace = true) :
    pyFloat t = none := by
  have hstrip : strip t = [] := by
    rw [strip, lstrip_of_all_space t h]
    rfl
  simp only [pyFloat, hstrip]
  rfl

/-- `removePct` keeps an all-whitespace block intact. -/
theorem removePct_all_space (t : PyStr) (h : t.all isSpace = true) :
    removePct t = t := by
  rw [removePct, List.filter_eq_self]
  intro a ha
  rw [List.all_eq_true] at h
  rw [isSpace_ne_pct a (h a ha)]
  rfl

/-- Every string splits as its right-strip plus an all-whitespace tail. -/
theorem rstrip_decomposition (w : PyStr) :
    ∃ t, w = rstrip w ++ t ∧ t.all isSpace = true := by
  refine ⟨(w.reverse.takeWhile isSpace).reverse, ?_, ?_⟩
  · have h2 : w.reverse.reverse
        = (w.reverse.dropWhile isSpace).reverse ++ (w.reverse.takeWhile isSpace).reverse := by
      rw [← List.reverse_append, List.takeWhile_append_dropWhile]
    rw [List.reverse_reverse] at h2
    exact h2
  · rw [List.all_eq_true]
    intro x hx
    exact List.mem_takeWhile_imp (List.mem_reverse.mp hx)

/-- `removePct` distributes over append. -/
theorem removePct_append (u v : PyStr) :
    removePct (u ++ v) = removePct u ++ removePct v := by
  simp only [removePct]
  exact List.filter_append u v

/-- `removePct` deletes a lone `'%'`. -/
theorem removePct_pct : removePct ['%'] = [] := rfl

/-- The shared cleanup-and-parse of both normalizers is unchanged by a
trailing `'%'`. -/
theorem strVal_append_pct (x : PyStr) : strVal (x ++ ['%']) = strVal x := by
  obtain ⟨t, hdec, ht⟩ := rstrip_decomposition (lstrip x)
  have e1 : removePct (strip (x ++ ['%'])) = removePct (strip x) ++ t := by
    rw [strip_append_pct, removePct_append, removePct_pct, List.append_nil]
    conv_lhs => rw [hdec]
    rw [removePct_append, removePct_all_space t ht]
    rfl
  simp only [strVal]
  rw [e1]
  by_cases hA : removePct (strip x) = []
  · rw [hA]
    simp only [List.nil_append, List.isEmpty_nil, if_true]
    cases t with
    | nil => rfl
    | cons c cs =>
        rw [show (c :: cs).isEmpty = false from rfl]
        simp only [Bool.false_eq_true, if_false]
        exact pyFloat_all_space (c :: cs) ht
  · have h1 : (removePct (strip x) ++ t).isEmpty = false := by
      cases hc : removePct (strip x) with
      | nil => exact absurd hc hA
      | cons a l => rfl
    have h2 : (removePct (strip x)).isEmpty = false := by
      cases hc : removePct (strip x) with
      | nil => exact absurd hc hA
      | cons a l => rfl
    rw [h1, h2]
    simp only [Bool.false_eq_true, if_false]
    exact pyFloat_append_space _ t ht

/-- C9: both normalizers strip surrounding whitespace and delete every
`'%'` before parsing: appending `'%'` to any string input never changes
the result, and an empty or all-whitespace string normalizes to missing
rather than raising. -/
theorem C9_cleanup_behaviour :
    (∀ s : PyStr, pct_to_float (.str (s ++ ['%'])) = pct_to_float (.str s)) ∧
    (∀ s : PyStr, ratio_to_float (.str (s ++ ['%'])) = ratio_to_float (.str s)) ∧
    (∀ s : PyStr, s.all isSpace = true →
        pct_to_float (.str s) = none ∧ ratio_to_float (.str s) = none) := by
  have hnone : ∀ s : PyStr, s.all isSpace = true → strVal s = none := by
    intro s h
    rw [strVal]
    have hstrip : strip s = [] := by
      rw [strip, lstrip_of_all_space s h]
      rfl
    rw [hstrip]
    rfl
  refine ⟨?_, ?_, ?_⟩
  · intro s
    simp only [pct_to_float, strVal_append_pct s]
  · intro s
    simp only [ratio_to_float, strVal_append_pct s]
  · intro s h
    constructor
    · simp only [pct_to_float, hnone s h]
    · simp only [ratio_to_float, hnone s h]

/-- Closed instantiation of `C9_cleanup_behaviour`: `"27.3%"` equals
`"27.3"` under both normalizers, and the all-whitespace string `"  "`
normalizes to missing. -/
theorem C9_cleanup_behaviour_witness :
    pct_to_float (.str ("27.3".toList ++ ['%'])) = pct_to_float (.str "27.3".toList) ∧
    ratio_to_float (.str ("27.3".toList ++ ['%'])) = ratio_to_float (.str "27.3".toList) ∧
    (pct_to_float (.str "  ".toList) = none ∧ ratio_to_float (.str "  ".toList) = none) :=
  ⟨C9_cleanup_behaviour.1 "27.3".toList,
   C9_cleanup_behaviour.2.1 "27.3".toList,
   C9_cleanup_behaviour.2.2 "  ".toList (by decide)⟩

end MLB

/-! ### C8: import-then-load round trip -/

namespace MLB

/-- A digit is not an underscore. -/
theorem digit_ne_underscore (c : Char) (h : c.isDigit = true) : (c == '_') = false := by
  cases hbe : (c == '_') with
  | false => rfl
  | true => rw [beq_iff_eq] at hbe; subst hbe; cases h

/-- A digit is not a dot. -/
theorem digit_ne_dot (c : Char) (h : c.isDigit = true) : (c == '.') = false := by
  cases hbe : (c == '.') with
  | false => rfl
  | true => rw [beq_iff_eq] at hbe; subst hbe; cases h

/-- Taking a satisfied prefix: `takeWhile` passes over a block that
wholly satisfies the predicate. -/
theorem takeWhile_append_of_all {α : Type} (p : α → Bool) (u v : List α)
    (h : u.all p = true) : (u ++ v).takeWhile p = u ++ v.takeWhile p := by
  induction u with
  | nil => rfl
  | cons a l ih =>
      simp only [List.all_cons, Bool.and_eq_true] at h
      simp [List.takeWhile_cons, h.1, ih h.2]

/-- `".csv"` is never a suffix of a string ending in `".json"`. -/
theorem csv_not_suffix_json (u : PyStr) :
    ".csv".toList.isSuffixOf (u ++ ".json".toList) = false := by
  cases h : ".csv".toList.isSuffixOf (u ++ ".json".toList) with
  | false => rfl
  | true =>
      exfalso
      rw [List.isSuffixOf_iff_suffix] at h
      obtain ⟨v, hv⟩ := h
      have h1 := congrArg List.getLast? hv
      rw [List.getLast?_append, List.getLast?_append] at h1
      cases h1

/-- The dated CSV snapshot name is never the current file's name. -/
theorem snapName_ne_currentName (stamp : PyStr) (hd : stamp.all Char.isDigit = true)
    (hne : stamp ≠ []) : (snapName stamp == currentName) = false := by
  cases hbe : (snapName stamp == currentName) with
  | false => rfl
  | true =>
      exfalso
      rw [beq_iff_eq] at hbe
      rw [snapName, show currentName
        = "nba_team_factors_".toList ++ "current.csv".toList from rfl,
        List.append_assoc] at hbe
      have h2 := List.append_cancel_left hbe
      cases stamp with
      | nil => exact hne rfl
      | cons c cs =>
          rw [List.cons_append] at h2
          have hc : c = 'c' := by
            have h3 := congrArg List.head? h2
            simp only [List.head?_cons] at h3
            exact Option.some.inj h3
          rw [List.all_cons, Bool.and_eq_true] at hd
          rw [hc] at hd
          cases hd.1

/-- The dated JSON snapshot name is never the current file's name. -/
theorem jsonName_ne_currentName (stamp : PyStr) :
    (jsonName stamp == currentName) = false := by
  cases hbe : (jsonName stamp == currentName) with
  | false => rfl
  | true =>
      exfalso
      rw [beq_iff_eq] at hbe
      have h1 := congrArg List.getLast? hbe
      rw [jsonName, List.getLast?_append,
        show ".json".toList.getLast? = some 'n' from rfl] at h1
      rw [show ∀ x : Option Char, (some 'n').or x = some 'n' from fun x => rfl] at h1
      rw [show currentName.getLast? = some 'v' from rfl] at h1
      exact absurd h1 (by decide)

/-- The dated JSON snapshot name is never the dated CSV snapshot name. -/
theorem jsonName_ne_snapName (stamp stamp' : PyStr) :
    (jsonName stamp == snapName stamp') = false := by
  cases hbe : (jsonName stamp == snapName stamp') with
  | false => rfl
  | true =>
      exfalso
      rw [beq_iff_eq] at hbe
      have h1 := congrArg List.getLast? hbe
      have hL : (jsonName stamp).getLast? = some 'n' := by
        rw [jsonName, List.getLast?_append,
          show ".json".toList.getLast? = some 'n' from rfl]
        rfl
      have hR : (snapName stamp').getLast? = some 'v' := by
        rw [snapName, List.getLast?_append,
          show ".csv".toList.getLast? = some 'v' from rfl]
        rfl
      rw [hL, hR] at h1
      exact absurd h1 (by decide)

/-- A list is a prefix of itself followed by anything (`isPrefixOf`
form). -/
theorem isPrefixOf_append (p x : PyStr) : p.isPrefixOf (p ++ x) = true := by
  rw [List.isPrefixOf_iff_prefix]
  exact List.prefix_append _ _

/-- A list is a suffix of anything followed by itself (`isSuffixOf`
form). -/
theorem isSuffixOf_append (s u : PyStr) : s.isSuffixOf (u ++ s) = true := by
  rw [List.isSuffixOf_iff_suffix]
  exact List.suffix_append _ _

/-- The dated CSV snapshot name matches the loader's glob. -/
theorem snapName_matches_glob (stamp : PyStr) (hd : stamp.all Char.isDigit = true)
    (hne : stamp ≠ []) : matchesSnapshotGlob (snapName stamp) = true := by
  cases stamp with
  | nil => exact absurd rfl hne
  | cons c cs =>
      rw [List.all_cons, Bool.and_eq_true] at hd
      simp only [matchesSnapshotGlob, snapName, List.cons_append, List.drop_left]
      simp [isPrefixOf_append, isSuffixOf_append, hd.1]

/-- The dated JSON snapshot name never matches the loader's glob. -/
theorem jsonName_not_glob (stamp : PyStr) :
    matchesSnapshotGlob (jsonName stamp) = false := by
  cases stamp with
  | nil => decide
  | cons c cs =>
      simp only [matchesSnapshotGlob, jsonName, List.cons_append, List.drop_left]
      simp [csv_not_suffix_json]
      exact fun h => csv_not_suffix_json cs

/-- The loader's stamp extraction recovers the stamp from a dated CSV
snapshot name. -/
theorem stampOf_snapName (stamp : PyStr) (hd : stamp.all Char.isDigit = true) :
    stampOf (snapName stamp) = stamp := by
  have hall1 : (".csv".toList.reverse ++ stamp.reverse).all
      (fun c => !(c == '_')) = true := by
    rw [List.all_append, Bool.and_eq_true]
    refine ⟨by decide, ?_⟩
    rw [List.all_eq_true]
    intro x hx
    rw [List.all_eq_true] at hd
    rw [digit_ne_underscore x (hd x (List.mem_reverse.mp hx))]
    rfl
  have h1 : afterLastUnderscore (snapName stamp) = stamp ++ ".csv".toList := by
    simp only [afterLastUnderscore, snapName]
    rw [List.reverse_append, List.reverse_append, ← List.append_assoc,
      takeWhile_append_of_all _ _ _ hall1]
    rw [show "nba_team_factors_".toList.reverse.takeWhile (fun c => !(c == '_'))
      = [] from by decide]
    rw [List.append_nil, List.reverse_append, List.reverse_reverse,
      List.reverse_reverse]
  rw [stampOf, h1]
  have hall2 : stamp.all (fun c => !(c == '.')) = true := by
    rw [List.all_eq_true]
    intro x hx
    rw [List.all_eq_true] at hd
    rw [digit_ne_dot x (hd x hx)]
    rfl
  rw [takeWhile_append_of_all _ _ _ hall2]
  rw [show ".csv".toList.takeWhile (fun c => !(c == '.')) = [] from by decide,
    List.append_nil]

/-- Flip a false boolean equality test. -/
theorem beq_flip_false {α : Type} [BEq α] [LawfulBEq α] {a b : α}
    (h : (a == b) = false) : (b == a) = false := by
  rw [beq_eq_false_iff_ne] at h ⊢
  exact fun hh => h hh.symm

/-- Inserting a row preserves one more than the length. -/
theorem length_insertRow (x : OutRow) (l : List OutRow) :
    (insertRow x l).length = l.length + 1 := by
  induction l with
  | nil => rfl
  | cons y ys ih =>
      simp only [insertRow]
      split
      · simp
      · simp [ih]

/-- Sorting the output rows preserves the row count. -/
theorem length_sortRows (l : List OutRow) : (sortRows l).length = l.length := by
  induction l with
  | nil => rfl
  | cons x xs ih => simp [sortRows, length_insertRow, ih]

end MLB

namespace MLB

/-- C8: for every valid raw export (all required columns resolvable,
i.e. the import succeeds) and every nonempty all-digit date stamp whose
date parses, importing into an empty processed directory and then
loading from it succeeds: the import reports no error, the loader
returns exactly the written table, the table's columns are exactly the
§3 record schema (which covers the loader's required set
case-insensitively), and its row count equals the raw input's. -/
theorem C8_import_load_round_trip
    (t : RawTable) (rows : List OutRow) (stamp : PyStr) (today maxAge o : ℤ)
    (hload : load_and_normalize t = .ok rows)
    (hd : stamp.all Char.isDigit = true) (hne : stamp ≠ [])
    (hord : parseStampOrdinal stamp = some o) :
    ∃ w : Option ℤ,
      (mainRun t stamp []).1 = none ∧
      load_nba_team_factors (mainRun t stamp []).2 today maxAge
        = .ok (⟨OUT_COLS, (sortRows rows).map rowCells⟩, w) ∧
      OUT_COLS = ["team_name".toList, "team".toList, "ortg".toList, "drtg".toList,
                  "netrtg".toList, "off_efg".toList, "off_orb".toList, "off_tov".toList,
                  "off_ftar".toList, "def_efg".toList, "def_orb".toList, "def_tov".toList,
                  "def_ftar".toList, "source".toList] ∧
      (∀ r ∈ REQ, (OUT_COLS.map lowerStr).contains r = true) ∧
      ((sortRows rows).map rowCells).length = t.rows.length := by
  have hb1 : (snapName stamp == currentName) = false :=
    snapName_ne_currentName stamp hd hne
  have hb2 : (jsonName stamp == currentName) = false := jsonName_ne_currentName stamp
  have hb3 : (jsonName stamp == snapName stamp) = false :=
    jsonName_ne_snapName stamp stamp
  have hb1' := beq_flip_false hb1
  have hb2' := beq_flip_false hb2
  have hb3' := beq_flip_false hb3
  have hmain : mainRun t stamp []
      = (none, [(jsonName stamp, ⟨OUT_COLS, (sortRows rows).map rowCells⟩),
                (snapName stamp, ⟨OUT_COLS, (sortRows rows).map rowCells⟩),
                (currentName, ⟨OUT_COLS, (sortRows rows).map rowCells⟩)]) := by
    simp only [mainRun, hload, writeFile, List.filter_cons, List.filter_nil]
    simp [hb1', hb2', hb3']
  have hcont : ([jsonName stamp, snapName stamp, currentName] : List PyStr).contains
      currentName = true := by
    simp [List.contains, List.elem, hb1', hb2']
  have hlook : List.lookup currentName
      [(jsonName stamp, (⟨OUT_COLS, (sortRows rows).map rowCells⟩ : CsvFile)),
       (snapName stamp, ⟨OUT_COLS, (sortRows rows).map rowCells⟩),
       (currentName, ⟨OUT_COLS, (sortRows rows).map rowCells⟩)]
      = some ⟨OUT_COLS, (sortRows rows).map rowCells⟩ := by
    simp [List.lookup, hb1', hb2']
  have hglobc : matchesSnapshotGlob currentName = false := by decide
  have hlat : latest_snapshot [jsonName stamp, snapName stamp, currentName]
      = some (snapName stamp) := by
    simp only [latest_snapshot, List.filter_cons, List.filter_nil,
      jsonName_not_glob stamp, snapName_matches_glob stamp hd hne, hglobc,
      Bool.false_eq_true, if_false, if_true]
    rfl
  have hsufc : ("current.csv".toList.isSuffixOf currentName) = true := by decide
  have hst : (if "current.csv".toList.isSuffixOf currentName then
        (latest_snapshot [jsonName stamp, snapName stamp, currentName]).map stampOf
      else some (stampOf currentName)) = some stamp := by
    rw [if_pos hsufc, hlat]
    rw [show Option.map stampOf (some (snapName stamp))
      = some (stampOf (snapName stamp)) from rfl]
    rw [stampOf_snapName stamp hd]
  have hdig : (!stamp.isEmpty && stamp.all Char.isDigit) = true := by
    cases stamp with
    | nil => exact absurd rfl hne
    | cons c cs =>
        rw [show (c :: cs).isEmpty = false from rfl]
        simp [hd]
  have hsw := staleWarn_eq [jsonName stamp, snapName stamp, currentName] currentName
      today maxAge stamp o hst hdig hord
  have hfilterREQ : REQ.filter
      (fun r => !((OUT_COLS.map lowerStr).contains r)) = [] := by decide
  refine ⟨if maxAge < today - o then some (today - o) else none, ?_, ?_, rfl,
    by decide, ?_⟩
  · rw [hmain]
  · rw [hmain]
    simp only [load_nba_team_factors, List.map_cons, List.map_nil, hcont, if_true,
      hlook, hsw, schemaCheck, hfilterREQ, List.isEmpty_nil]
  · rw [List.length_map, length_sortRows]
    unfold load_and_normalize at hload
    cases hres : resolveAll t.columns with
    | error e => rw [hres] at hload; cases hload
    | ok res =>
        rw [hres] at hload
        simp only [Except.map] at hload
        cases hload
        rw [List.length_map]

/-- Closed instantiation of `C8_import_load_round_trip` at
`sampleTable` with stamp `20251012`. -/
theorem C8_import_load_round_trip_witness :
    ∃ w : Option ℤ,
      (mainRun sampleTable "20251012".toList []).1 = none ∧
      load_nba_team_factors (mainRun sampleTable "20251012".toList []).2
          (toOrdinal 2025 10 12) 3
        = .ok (⟨OUT_COLS,
            (sortRows (sampleTable.rows.map
              (buildRow sampleTable sampleResolved))).map rowCells⟩, w) ∧
      OUT_COLS = ["team_name".toList, "team".toList, "ortg".toList, "drtg".toList,
                  "netrtg".toList, "off_efg".toList, "off_orb".toList, "off_tov".toList,
                  "off_ftar".toList, "def_efg".toList, "def_orb".toList, "def_tov".toList,
                  "def_ftar".toList, "source".toList] ∧
      (∀ r ∈ REQ, (OUT_COLS.map lowerStr).contains r = true) ∧
      ((sortRows (sampleTable.rows.map
          (buildRow sampleTable sampleResolved))).map rowCells).length
        = sampleTable.rows.length :=
  C8_import_load_round_trip sampleTable
    (sampleTable.rows.map (buildRow sampleTable sampleResolved))
    "20251012".toList (toOrdinal 2025 10 12) 3 (toOrdinal 2025 10 12)
    rfl (by decide) (by decide) (by decide)

end MLB
